import Mathlib

/-!
Verification of the BTC high-frequency trading bot (`btc_hf_bot.py`).

The Python source is shallowly embedded: floating-point quantities become
rationals (or reals where `math.sqrt`/`math.exp` appear), Python `dict`s
become association lists, DynamoDB and the Kalshi broker become explicit
parameters describing the outcome of each network call, and the wall clock
plus `datetime.fromisoformat` become explicit arguments.
-/

namespace BTCBot

/- Configuration constants (btc_hf_bot.py lines 53-96). -/

def MIN_EDGE_PCT : ℚ := 10

def EXIT_EDGE_PCT : ℚ := 1

def KALSHI_FEE_RATE : ℚ := 7/100

def KELLY_FRACTION : ℚ := 1/4

def MAX_CONTRACTS : ℤ := 10

def MAX_EXPOSURE_FRACTION : ℚ := 1/2

def EDGE_INCREASE_THRESHOLD : ℚ := 5

def MAX_SLIPPAGE_CENTS : ℤ := 5

def TRADING_CUTOFF_MINUTES : ℤ := 15

def ORDER_TIMEOUT_SEC : ℕ := 30

def DRY_RUN_STARTING_BALANCE : ℚ := 200

/-- Python `int(x)` applied to a rational: truncation toward zero. -/
def pyInt (x : ℚ) : ℤ := if 0 ≤ x then ⌊x⌋ else ⌈x⌉

/-- `Position` dataclass (lines 99-128).  `expiry_time` stays a string, as in
the source; parsing it is modelled by an explicit `parse` argument below. -/
structure Position where
  ticker : String
  contracts : ℤ
  avg_price_cents : ℚ
  entry_edge : ℚ
  last_edge : ℚ
  btc_price_at_entry : ℚ
  strike_price : ℚ
  opened_at : String
  expiry_time : String
deriving DecidableEq, Repr

/-- `Position.is_expired` (lines 120-128).  `parse` models
`datetime.fromisoformat` (timestamps as rational epoch seconds) and `now`
models `datetime.utcnow()`; a parse failure yields `True` (safe default). -/
def Position.is_expired (parse : String → Option ℚ) (now : ℚ) (pos : Position) : Bool :=
  match parse pos.expiry_time with
  | some expiry => decide (expiry < now)
  | none => true

/-- A raw DynamoDB item as read by `_load_positions_from_dynamodb`
(lines 167-178); `expiry_time` is the one attribute read with a default. -/
structure Item where
  ticker : String
  contracts : ℤ
  avg_price_cents : ℚ
  entry_edge : ℚ
  last_edge : ℚ
  btc_price_at_entry : ℚ
  strike_price : ℚ
  opened_at : String
  expiry_time : Option String
deriving DecidableEq, Repr

/-- Construction of a `Position` from a DynamoDB item (lines 168-178):
`item.get('expiry_time', '2000-01-01T00:00:00')`. -/
def itemToPosition (item : Item) : Position :=
  { ticker := item.ticker
    contracts := item.contracts
    avg_price_cents := item.avg_price_cents
    entry_edge := item.entry_edge
    last_edge := item.last_edge
    btc_price_at_entry := item.btc_price_at_entry
    strike_price := item.strike_price
    opened_at := item.opened_at
    expiry_time := item.expiry_time.getD "2000-01-01T00:00:00" }

/-- The in-memory ledger `self.positions : Dict[str, Position]`. -/
abbrev Positions := List (String × Position)

/-- Dictionary lookup `self.positions.get(ticker)`. -/
def lookupPos (t : String) : Positions → Option Position
  | [] => none
  | (k, p) :: rest => if k = t then some p else lookupPos t rest

/-- Dictionary assignment `self.positions[ticker] = pos`. -/
def setPos (t : String) (p : Position) : Positions → Positions
  | [] => [(t, p)]
  | (k, q) :: rest => if k = t then (t, p) :: rest else (k, q) :: setPos t p rest

/-- Dictionary removal `self.positions.pop(ticker, None)`. -/
def removePos (t : String) : Positions → Positions
  | [] => []
  | (k, q) :: rest => if k = t then removePos k rest else (k, q) :: removePos t rest

/-- Result of `_load_positions_from_dynamodb` (lines 156-201): the admitted
in-memory map together with the tickers deleted from the durable store. -/
structure LoadResult where
  positions : Positions
  deleted : List String
deriving DecidableEq, Repr

/-- One iteration of the load loop (lines 167-187): expired positions are
deleted from DynamoDB, the rest are admitted into `self.positions`. -/
def loadStep (parse : String → Option ℚ) (now : ℚ) (acc : LoadResult) (item : Item) :
    LoadResult :=
  let pos := itemToPosition item
  if pos.is_expired parse now then
    { acc with deleted := acc.deleted ++ [pos.ticker] }
  else
    { acc with positions := setPos pos.ticker pos acc.positions }

/-- `_load_positions_from_dynamodb` (lines 156-201) over the scanned items. -/
def load_positions_from_dynamodb (parse : String → Option ℚ) (now : ℚ)
    (items : List Item) : LoadResult :=
  items.foldl (loadStep parse now) ⟨[], []⟩

/-- `_save_position_to_dynamodb` (lines 203-231).  `putOk` tells whether the
DynamoDB `put_item` call succeeds; in dry-run a failure degrades to a warning
(returns `True`), in live mode it returns `False`. -/
def save_position_to_dynamodb (use_dynamodb dry_run putOk : Bool) : Bool :=
  if use_dynamodb = false then true
  else if putOk then true
  else if dry_run then true
  else false

/-- The mutable state of `PositionTracker` (lines 131-143). -/
structure PositionTracker where
  positions : Positions
  dry_run : Bool
  use_dynamodb : Bool
deriving DecidableEq, Repr

/-- `PositionTracker.open_position` (lines 264-280).  The Python code assigns
`self.positions[ticker] = pos` and then calls `_save_position_to_dynamodb`,
discarding its boolean result; the discarded result is returned here so the
mismatch can be stated. -/
def open_position (tr : PositionTracker) (putOk : Bool) (ticker : String)
    (contracts : ℤ) (price_cents edge btc_price strike_price : ℚ)
    (opened_at expiry_time : String) : PositionTracker × Bool :=
  let pos : Position :=
    { ticker := ticker
      contracts := contracts
      avg_price_cents := price_cents
      entry_edge := edge
      last_edge := edge
      btc_price_at_entry := btc_price
      strike_price := strike_price
      opened_at := opened_at
      expiry_time := expiry_time }
  let tr' := { tr with positions := setPos ticker pos tr.positions }
  let saved := save_position_to_dynamodb tr.use_dynamodb tr.dry_run putOk
  (tr', saved)

/-- `PositionTracker.add_to_position` (lines 282-294).  The position object is
mutated in place (weighted-average price) and then saved; the save result is
again discarded by the Python code.  A missing key raises `KeyError` in
Python, modelled as leaving the tracker unchanged with result `false`. -/
def add_to_position (tr : PositionTracker) (putOk : Bool) (ticker : String)
    (contracts : ℤ) (price_cents edge : ℚ) : PositionTracker × Bool :=
  match lookupPos ticker tr.positions with
  | none => (tr, false)
  | some pos =>
    let total_contracts := pos.contracts + contracts
    let total_cost := (pos.contracts : ℚ) * pos.avg_price_cents + (contracts : ℚ) * price_cents
    let new_avg := total_cost / (total_contracts : ℚ)
    let pos' := { pos with
      contracts := total_contracts
      avg_price_cents := new_avg
      last_edge := edge }
    let tr' := { tr with positions := setPos ticker pos' tr.positions }
    let saved := save_position_to_dynamodb tr.use_dynamodb tr.dry_run putOk
    (tr', saved)

/-- `PositionTracker.close_position` (lines 302-307). -/
def close_position (tr : PositionTracker) (ticker : String) :
    PositionTracker × Option Position :=
  match lookupPos ticker tr.positions with
  | none => (tr, none)
  | some pos => ({ tr with positions := removePos ticker tr.positions }, some pos)

/-- `PositionTracker.can_add_to_position` (lines 250-262): the 5pp rule. -/
def can_add_to_position (tr : PositionTracker) (ticker : String)
    (current_edge : ℚ) : Bool :=
  match lookupPos ticker tr.positions with
  | none => true
  | some pos => decide (EDGE_INCREASE_THRESHOLD ≤ current_edge - pos.last_edge)

/-- `TradeAction` enum from `performance_tracker.py` (lines 18-21). -/
inductive TradeAction where
  | OPEN
  | ADD
  | LIQUIDATE
deriving DecidableEq, Repr

/-- `HFTradingBot._update_simulated_balance` (lines 568-580). -/
def update_simulated_balance (dry_run : Bool) (balance cost_cents : ℚ)
    (action : TradeAction) : ℚ :=
  if dry_run = false then balance
  else
    let cost_dollars := cost_cents / 100
    match action with
    | .OPEN => balance - cost_dollars
    | .ADD => balance - cost_dollars
    | .LIQUIDATE => balance + cost_dollars

/-- A broker order response: the `order` object of the Kalshi API result
(`order_id` may be absent, `status` is a string such as "filled"). -/
structure BrokerOrder where
  order_id : Option String
  status : String
deriving DecidableEq, Repr

/-- Environment describing the outcome of the network calls a single
`execute_trade` invocation can make: `sellResult`/`buyResult` are the
responses of `kalshi.sell_order`/`kalshi.create_order` (`none` models a
raised exception), `polls` the successive `get_order` statuses observed while
a resting order is awaited (`none` models a swallowed exception), and
`nowMs` the value of `int(time.time()*1000)` used for dry-run order ids. -/
structure ExecEnv where
  sellResult : Option BrokerOrder
  buyResult : Option BrokerOrder
  polls : List (Option String)
  nowMs : ℕ
deriving DecidableEq, Repr

/-- The fill-wait loop of `execute_trade` (lines 664-678): poll until the
order is filled (`true`), give up on a terminal status, a timeout ends the
wait (`false`, followed by a best-effort cancel in the source). -/
def poll_for_fill : List (Option String) → Bool
  | [] => false
  | none :: rest => poll_for_fill rest
  | some s :: rest =>
    if s = "filled" then true
    else if s = "resting" ∨ s = "pending" then poll_for_fill rest
    else false

/-- `HFTradingBot.execute_trade` (lines 583-697).  Returns the order id (or
`none` on failure) together with the updated simulated balance.  In live mode
(`dry_run = false`) the simulated balance is untouched; `has_kalshi` tells
whether `self.kalshi` is set. -/
def execute_trade (dry_run has_kalshi : Bool) (env : ExecEnv) (balance : ℚ)
    (contracts price : ℤ) (action : TradeAction) : Option String × ℚ :=
  let cost_cents : ℚ := (contracts : ℚ) * (price : ℚ)
  if dry_run then
    (some ("DRY-" ++ toString env.nowMs),
     update_simulated_balance true balance cost_cents action)
  else if has_kalshi then
    match action with
    | .LIQUIDATE =>
      match env.sellResult with
      | none => (none, balance)
      | some order =>
        if order.status = "filled" then (order.order_id, balance)
        else (none, balance)
    | _ =>
      match env.buyResult with
      | none => (none, balance)
      | some order =>
        if order.status = "filled" then (order.order_id, balance)
        else if order.status = "resting" then
          if poll_for_fill (env.polls.take (ORDER_TIMEOUT_SEC / 2)) then
            (order.order_id, balance)
          else (none, balance)
        else (none, balance)
  else (none, balance)

/-- One iteration of the exit pass of `HFTradingBot.scan_and_trade`
(lines 857-866): liquidate a position whose edge has dropped to
`EXIT_EDGE_PCT` and clear its ledger entry only when the liquidation order
id came back. -/
def exit_step (dry_run has_kalshi : Bool) (env : String → ExecEnv)
    (acc : PositionTracker × ℚ) (pos : Position) : PositionTracker × ℚ :=
  if pos.last_edge ≤ EXIT_EDGE_PCT then
    match execute_trade dry_run has_kalshi (env pos.ticker) acc.2
        pos.contracts (pyInt pos.avg_price_cents) .LIQUIDATE with
    | (some _, bal2) => ((close_position acc.1 pos.ticker).1, bal2)
    | (none, bal2) => (acc.1, bal2)
  else acc

/-- The exit pass of `HFTradingBot.scan_and_trade` (lines 857-866), iterating
over a snapshot copy (`list(...)`) of the positions.  `env` gives the broker
responses per ticker. -/
def exit_pass (dry_run has_kalshi : Bool) (env : String → ExecEnv)
    (tr : PositionTracker) (balance : ℚ) : PositionTracker × ℚ :=
  (tr.positions.map Prod.snd).foldl (exit_step dry_run has_kalshi env) (tr, balance)

/-- `HFTradingBot.calculate_kalshi_fee_pct` (lines 486-505). -/
def calculate_kalshi_fee_pct (price_cents : ℤ) : ℚ :=
  if price_cents ≤ 0 ∨ 100 ≤ price_cents then 0
  else KALSHI_FEE_RATE * (1 - (price_cents : ℚ) / 100) * 100

/-- `HFTradingBot.calculate_net_edge` (lines 507-520). -/
def calculate_net_edge (gross_edge_pct : ℚ) (price_cents : ℤ) : ℚ :=
  gross_edge_pct - calculate_kalshi_fee_pct price_cents

/-- The exact Kalshi fee in cents, as documented in the source (lines 58-60
and 490): `ceil(0.07 x contracts x price x (1 - price/100))`. -/
def exact_fee_cents (contracts price_cents : ℤ) : ℤ :=
  ⌈KALSHI_FEE_RATE * (contracts : ℚ) * (price_cents : ℚ) * (1 - (price_cents : ℚ) / 100)⌉

/-- `HFTradingBot.calculate_kelly_contracts` (lines 523-544). -/
def calculate_kelly_contracts (win_prob : ℚ) (no_price_cents : ℤ)
    (bankroll : ℚ) : ℤ :=
  if no_price_cents ≤ 0 ∨ 100 ≤ no_price_cents then 0
  else
    let profit : ℚ := 100 - (no_price_cents : ℚ)
    let risk : ℚ := (no_price_cents : ℚ)
    let b := profit / risk
    let p := win_prob
    let q := 1 - p
    let kelly := if 0 < b then (b * p - q) / b else 0
    let kelly := max 0 (min kelly KELLY_FRACTION)
    let bet_amount := bankroll * kelly
    let contracts := pyInt (bet_amount / ((no_price_cents : ℚ) / 100))
    min contracts MAX_CONTRACTS

/-- The substitution `t = 1 / (1 + 0.2316419 * |z|)` of the normal-CDF
approximation inside `calculate_model_probability` (line 479). -/
noncomputable def normT (z : ℝ) : ℝ := 1 / (1 + 0.2316419 * |z|)

/-- The factor `d = 0.3989423 * exp(-z*z/2)` (line 480). -/
noncomputable def normD (z : ℝ) : ℝ := 0.3989423 * Real.exp (-(z * z) / 2)

/-- The Horner polynomial of the approximation (line 481). -/
noncomputable def normPoly (t : ℝ) : ℝ :=
  0.3193815 + t * (-0.3565638 + t * (1.781478 + t * (-1.821256 + t * 1.330274)))

/-- The tail value `p = d * t * poly(t)` (line 481). -/
noncomputable def pTail (z : ℝ) : ℝ := normD z * normT z * normPoly (normT z)

/-- The inner `norm_cdf` closure of `calculate_model_probability`
(lines 474-482): saturate to exactly 0 below -6 and exactly 1 above 6,
otherwise evaluate the rational-polynomial approximation. -/
noncomputable def norm_cdf (z : ℝ) : ℝ :=
  if z < -6 then 0
  else if 6 < z then 1
  else if 0 < z then 1 - pTail z else pTail z

/-- `HFTradingBot.calculate_model_probability` (lines 460-484). -/
noncomputable def calculate_model_probability (btc_price strike_price : ℝ)
    (vol_std_pct : ℝ) (minutes_to_settlement : ℤ) : Option ℝ :=
  if vol_std_pct ≤ 0 ∨ minutes_to_settlement ≤ 0 then none
  else
    let vol_scaled := vol_std_pct * Real.sqrt ((minutes_to_settlement : ℝ) / 15)
    let price_diff_pct := (strike_price - btc_price) / btc_price * 100
    let std_devs_above := if 0 < vol_scaled then price_diff_pct / vol_scaled else 0
    some (norm_cdf std_devs_above)

/- ------------------------------------------------------------------ -/
/- Association-list helper lemmas. -/

theorem lookupPos_setPos_self (t : String) (p : Position) (m : Positions) :
    lookupPos t (setPos t p m) = some p := by
  induction m with
  | nil => simp [setPos, lookupPos]
  | cons hd rest ih =>
    obtain ⟨k, q⟩ := hd
    by_cases hk : k = t
    · simp [setPos, hk, lookupPos]
    · simp [setPos, hk, lookupPos, ih]

theorem mem_setPos {kp : String × Position} {t : String} {p : Position}
    {m : Positions} (h : kp ∈ setPos t p m) : kp = (t, p) ∨ kp ∈ m := by
  induction m with
  | nil => simpa [setPos] using h
  | cons hd rest ih =>
    obtain ⟨k, q⟩ := hd
    by_cases hk : k = t
    · rw [setPos, if_pos hk] at h
      rcases List.mem_cons.1 h with h' | h'
      · exact Or.inl h'
      · exact Or.inr (List.mem_cons_of_mem _ h')
    · rw [setPos, if_neg hk] at h
      rcases List.mem_cons.1 h with h' | h'
      · exact Or.inr (h' ▸ List.mem_cons_self _ _)
      · rcases ih h' with h'' | h''
        · exact Or.inl h''
        · exact Or.inr (List.mem_cons_of_mem _ h'')

theorem lookupPos_removePos_ne {k t : String} (h : k ≠ t) (m : Positions) :
    lookupPos t (removePos k m) = lookupPos t m := by
  induction m with
  | nil => rfl
  | cons hd rest ih =>
    obtain ⟨k', q⟩ := hd
    by_cases hk : k' = k
    · subst hk
      simp [removePos, lookupPos, h, ih]
    · simp [removePos, hk, lookupPos, ih]

/- ------------------------------------------------------------------ -/
/- Concrete fixtures used by claim theorems and witnesses. -/

/-- An empty live-mode tracker (dry_run = False, DynamoDB on). -/
def trLiveEmpty : PositionTracker :=
  { positions := [], dry_run := false, use_dynamodb := true }

/-- A sample position: 2 contracts at an average of 40 cents. -/
def posWitness : Position :=
  { ticker := "T", contracts := 2, avg_price_cents := 40, entry_edge := 12,
    last_edge := 12, btc_price_at_entry := 90000, strike_price := 91000,
    opened_at := "2025-01-01T00:00:00", expiry_time := "2025-01-01T01:00:00" }

/-- A dry-run tracker holding `posWitness` under ticker "T". -/
def trWitness : PositionTracker :=
  { positions := [("T", posWitness)], dry_run := true, use_dynamodb := true }

/- ------------------------------------------------------------------ -/
/- Claim C1. -/

/-- Claim C1: the claim states that in live mode (dry_run = false) a failing
DynamoDB save aborts `open_position` / `add_to_position`, leaving the
in-memory positions map exactly as before.  The code violates this: both
methods mutate `self.positions` first and discard the `False` returned by
`_save_position_to_dynamodb`.  Starting from the empty live-mode tracker,
an `open_position` whose persistence write fails (putOk = false) still
creates the ledger entry, and a subsequent failing `add_to_position` still
mutates it to 8 contracts. -/
theorem C1_live_save_failure_still_mutates :
    (lookupPos "KXBTCD-TEST" trLiveEmpty.positions = none)
    ∧ (open_position trLiveEmpty false "KXBTCD-TEST" 5 50 12 90000 91000
        "2025-01-01T00:00:00" "2025-01-01T01:00:00").2 = false
    ∧ ((open_position trLiveEmpty false "KXBTCD-TEST" 5 50 12 90000 91000
        "2025-01-01T00:00:00" "2025-01-01T01:00:00").1.positions.map
          (fun kp => (kp.1, kp.2.contracts)) = [("KXBTCD-TEST", 5)])
    ∧ (add_to_position (open_position trLiveEmpty false "KXBTCD-TEST" 5 50 12 90000 91000
        "2025-01-01T00:00:00" "2025-01-01T01:00:00").1 false "KXBTCD-TEST" 3 60 18).2 = false
    ∧ ((add_to_position (open_position trLiveEmpty false "KXBTCD-TEST" 5 50 12 90000 91000
        "2025-01-01T00:00:00" "2025-01-01T01:00:00").1 false "KXBTCD-TEST" 3 60 18).1.positions.map
          (fun kp => (kp.1, kp.2.contracts)) = [("KXBTCD-TEST", 8)]) := by
  decide

/- ------------------------------------------------------------------ -/
/- Claim C7. -/

/-- Claim C7: after `add_to_position(ticker, add_contracts, add_price, edge)`
on an existing position with `old_contracts > 0`, the position holds
`contracts = old + add` and the cost-weighted average price, so that
`avg_price_cents * contracts` equals the sum over fills of price times
quantity (exactly, in rational arithmetic). -/
theorem C7_add_to_position_weighted_average (tr : PositionTracker) (putOk : Bool)
    (t : String) (pos : Position) (c : ℤ) (price edge : ℚ)
    (hlk : lookupPos t tr.positions = some pos)
    (hpos : 0 < pos.contracts) (hc : 0 ≤ c) :
    ∃ pos', lookupPos t (add_to_position tr putOk t c price edge).1.positions = some pos'
      ∧ pos'.contracts = pos.contracts + c
      ∧ pos'.avg_price_cents =
          ((pos.contracts : ℚ) * pos.avg_price_cents + (c : ℚ) * price)
            / ((pos.contracts : ℚ) + (c : ℚ))
      ∧ pos'.avg_price_cents * (pos'.contracts : ℚ) =
          (pos.contracts : ℚ) * pos.avg_price_cents + (c : ℚ) * price := by
  have htot : ((pos.contracts + c : ℤ) : ℚ) ≠ 0 := by
    have : (0 : ℤ) < pos.contracts + c := by omega
    exact_mod_cast this.ne'
  have hmain : lookupPos t (add_to_position tr putOk t c price edge).1.positions
      = some { pos with
          contracts := pos.contracts + c
          avg_price_cents :=
            ((pos.contracts : ℚ) * pos.avg_price_cents + (c : ℚ) * price)
              / ((pos.contracts + c : ℤ) : ℚ)
          last_edge := edge } := by
    simp only [add_to_position, hlk]
    exact lookupPos_setPos_self t _ tr.positions
  refine ⟨_, hmain, rfl, ?_, ?_⟩
  · push_cast
    ring
  · show ((pos.contracts : ℚ) * pos.avg_price_cents + (c : ℚ) * price)
        / ((pos.contracts + c : ℤ) : ℚ) * ((pos.contracts + c : ℤ) : ℚ)
      = (pos.contracts : ℚ) * pos.avg_price_cents + (c : ℚ) * price
    exact div_mul_cancel₀ _ htot

/-- Witness for C7 at a concrete input: 2 contracts at 40 cents plus
3 contracts at 60 cents gives 5 contracts at 46 cents. -/
theorem C7_add_to_position_weighted_average_witness :
    (lookupPos "T" trWitness.positions = some posWitness
      ∧ (0 : ℤ) < 2 ∧ (0 : ℤ) ≤ 3)
    ∧ (∃ pos', lookupPos "T" (add_to_position trWitness true "T" 3 60 18).1.positions = some pos'
        ∧ pos'.contracts = posWitness.contracts + 3
        ∧ pos'.avg_price_cents =
            ((posWitness.contracts : ℚ) * posWitness.avg_price_cents + (3 : ℚ) * 60)
              / ((posWitness.contracts : ℚ) + (3 : ℚ))
        ∧ pos'.avg_price_cents * (pos'.contracts : ℚ) =
            (posWitness.contracts : ℚ) * posWitness.avg_price_cents + (3 : ℚ) * 60) :=
  ⟨⟨by decide, by decide, by decide⟩,
   C7_add_to_position_weighted_average trWitness true "T" posWitness 3 60 18
     (by decide) (by decide) (by decide)⟩

/- ------------------------------------------------------------------ -/
/- Claim C10. -/

/-- Claim C10: in dry-run mode `execute_trade` returns a non-None order id
for every action (the simulated order is treated as immediately filled,
including liquidations), and the simulated balance is adjusted on every
call: debited by the cost for OPEN and ADD, credited for LIQUIDATE. -/
theorem C10_dry_run_always_fills (hk : Bool) (env : ExecEnv) (bal : ℚ)
    (c pr : ℤ) :
    (∀ a : TradeAction, (execute_trade true hk env bal c pr a).1
        = some ("DRY-" ++ toString env.nowMs))
    ∧ (execute_trade true hk env bal c pr .OPEN).2
        = bal - (c : ℚ) * (pr : ℚ) / 100
    ∧ (execute_trade true hk env bal c pr .ADD).2
        = bal - (c : ℚ) * (pr : ℚ) / 100
    ∧ (execute_trade true hk env bal c pr .LIQUIDATE).2
        = bal + (c : ℚ) * (pr : ℚ) / 100 := by
  refine ⟨fun a => ?_, ?_, ?_, ?_⟩ <;>
    simp [execute_trade, update_simulated_balance]

/- ------------------------------------------------------------------ -/
/- Claim C8 (corrected: the spec example miscomputes the product). -/

/-- Counterexample to claim C8: the claim asserts
`ceil(0.07*5*85*(1-85/100)) = 6`, but `0.07*5*85*0.15 = 4.4625`, whose
ceiling is 5, not 6. -/
theorem C8_counterexample :
    exact_fee_cents 5 85 = 5 ∧ (5 : ℤ) ≠ 6 := by
  constructor
  · unfold exact_fee_cents KALSHI_FEE_RATE
    rw [Int.ceil_eq_iff]
    norm_num
  · decide

/-- Claim C8 as amended: the exact fee in cents is
`ceil(FEE_RATE * contracts * ask_cents * (1 - ask_cents/100))` with
FEE_RATE = 0.07, and for ask = 85 cents, contracts = 5 the product is
exactly 4.4625 (= 357/80), so the fee is 5 cents, i.e. $0.05. -/
theorem C8_exact_fee (c a : ℤ) :
    exact_fee_cents c a
      = ⌈KALSHI_FEE_RATE * (c : ℚ) * (a : ℚ) * (1 - (a : ℚ) / 100)⌉
    ∧ KALSHI_FEE_RATE * (5 : ℚ) * 85 * (1 - 85 / 100) = 357 / 80
    ∧ exact_fee_cents 5 85 = 5 := by
  refine ⟨rfl, by norm_num [KALSHI_FEE_RATE], ?_⟩
  unfold exact_fee_cents KALSHI_FEE_RATE
  rw [Int.ceil_eq_iff]
  norm_num

/- ------------------------------------------------------------------ -/
/- Claim C4 (corrected: fails for a negative remaining budget). -/

/-- Counterexample to claim C4 as stated for every `budget_dollars`: with
win probability 0.9, ask 50 cents and budget -100 dollars the sizer
returns -50 contracts, which is negative (and its cost -25 dollars exceeds
the -100 dollar budget). -/
theorem C4_counterexample :
    calculate_kelly_contracts (9/10) 50 (-100) = -50
    ∧ ¬ (0 : ℤ) ≤ calculate_kelly_contracts (9/10) 50 (-100)
    ∧ ¬ ((calculate_kelly_contracts (9/10) 50 (-100) : ℚ) * 50 / 100 ≤ -100) := by
  have hc : ⌈(-50 : ℚ)⌉ = (-50 : ℤ) := by
    rw [Int.ceil_eq_iff]
    norm_num
  have h50 : calculate_kelly_contracts (9/10) 50 (-100) = -50 := by
    norm_num [calculate_kelly_contracts, pyInt, hc, KELLY_FRACTION, MAX_CONTRACTS]
  refine ⟨h50, ?_, ?_⟩
  · rw [h50]
    norm_num
  · rw [h50]
    norm_num

/-- Core bound for the sizer: whatever the raw Kelly fraction is, once it is
clamped to `[0, KELLY_FRACTION]` the resulting contract count is in
`[0, MAX_CONTRACTS]` and its cost is at most the bankroll. -/
theorem kelly_clamp_bounds (bankroll kellyRaw : ℚ) (price : ℤ)
    (hb : 0 ≤ bankroll) (hp0 : 0 < price) :
    0 ≤ min (pyInt (bankroll * max 0 (min kellyRaw KELLY_FRACTION)
          / ((price : ℚ) / 100))) MAX_CONTRACTS
    ∧ min (pyInt (bankroll * max 0 (min kellyRaw KELLY_FRACTION)
          / ((price : ℚ) / 100))) MAX_CONTRACTS ≤ MAX_CONTRACTS
    ∧ ((min (pyInt (bankroll * max 0 (min kellyRaw KELLY_FRACTION)
          / ((price : ℚ) / 100))) MAX_CONTRACTS : ℤ) : ℚ) * (price : ℚ) / 100
        ≤ bankroll := by
  have hpQ : (0 : ℚ) < (price : ℚ) := by exact_mod_cast hp0
  set kelly : ℚ := max 0 (min kellyRaw KELLY_FRACTION) with hkelly
  have hk0 : 0 ≤ kelly := le_max_left _ _
  have hk4 : kelly ≤ KELLY_FRACTION := by
    apply max_le
    · norm_num [KELLY_FRACTION]
    · exact min_le_right _ _
  have hbet : 0 ≤ bankroll * kelly := mul_nonneg hb hk0
  have hbet4 : bankroll * kelly ≤ bankroll := by
    calc bankroll * kelly ≤ bankroll * KELLY_FRACTION :=
          mul_le_mul_of_nonneg_left hk4 hb
      _ ≤ bankroll * 1 := by
          apply mul_le_mul_of_nonneg_left _ hb
          norm_num [KELLY_FRACTION]
      _ = bankroll := mul_one bankroll
  have hratio : 0 ≤ bankroll * kelly / ((price : ℚ) / 100) :=
    div_nonneg hbet (by positivity)
  have hfloor : pyInt (bankroll * kelly / ((price : ℚ) / 100))
      = ⌊bankroll * kelly / ((price : ℚ) / 100)⌋ := if_pos hratio
  have hfl0 : 0 ≤ ⌊bankroll * kelly / ((price : ℚ) / 100)⌋ :=
    Int.floor_nonneg.2 hratio
  refine ⟨?_, min_le_right _ _, ?_⟩
  · rw [hfloor]
    exact le_min hfl0 (by norm_num [MAX_CONTRACTS])
  · rw [hfloor]
    have hmin : ((min ⌊bankroll * kelly / ((price : ℚ) / 100)⌋ MAX_CONTRACTS : ℤ) : ℚ)
        ≤ bankroll * kelly / ((price : ℚ) / 100) := by
      calc ((min ⌊bankroll * kelly / ((price : ℚ) / 100)⌋ MAX_CONTRACTS : ℤ) : ℚ)
          ≤ ((⌊bankroll * kelly / ((price : ℚ) / 100)⌋ : ℤ) : ℚ) := by
            exact_mod_cast min_le_left _ _
        _ ≤ bankroll * kelly / ((price : ℚ) / 100) := Int.floor_le _
    have hcost : ((min ⌊bankroll * kelly / ((price : ℚ) / 100)⌋ MAX_CONTRACTS : ℤ) : ℚ)
        * ((price : ℚ) / 100) ≤ bankroll * kelly := by
      have := mul_le_mul_of_nonneg_right hmin (le_of_lt (by positivity :
        (0 : ℚ) < (price : ℚ) / 100))
      rwa [div_mul_cancel₀ _ (by positivity : ((price : ℚ) / 100) ≠ 0)] at this
    calc ((min ⌊bankroll * kelly / ((price : ℚ) / 100)⌋ MAX_CONTRACTS : ℤ) : ℚ)
          * (price : ℚ) / 100
        = ((min ⌊bankroll * kelly / ((price : ℚ) / 100)⌋ MAX_CONTRACTS : ℤ) : ℚ)
          * ((price : ℚ) / 100) := by ring
      _ ≤ bankroll * kelly := hcost
      _ ≤ bankroll := hbet4

/-- Claim C4 as amended: for every win probability and ask price, and every
non-negative `budget_dollars`, `calculate_kelly_contracts` returns a count
at least 0 and at most MAX_CONTRACTS (10) whose cost
`count * ask_cents / 100` does not exceed the budget. -/
theorem C4_kelly_bounds (p : ℚ) (price : ℤ) (bankroll : ℚ)
    (hb : 0 ≤ bankroll) :
    0 ≤ calculate_kelly_contracts p price bankroll
    ∧ calculate_kelly_contracts p price bankroll ≤ MAX_CONTRACTS
    ∧ (calculate_kelly_contracts p price bankroll : ℚ) * (price : ℚ) / 100
        ≤ bankroll := by
  unfold calculate_kelly_contracts
  by_cases h : price ≤ 0 ∨ 100 ≤ price
  · rw [if_pos h]
    refine ⟨le_refl 0, by norm_num [MAX_CONTRACTS], ?_⟩
    simpa using hb
  · rw [if_neg h]
    push_neg at h
    exact kelly_clamp_bounds bankroll
      (if 0 < (100 - (price : ℚ)) / (price : ℚ) then
        ((100 - (price : ℚ)) / (price : ℚ) * p - (1 - p))
          / ((100 - (price : ℚ)) / (price : ℚ))
      else 0) price hb h.1

/-- Witness for C4 at a concrete input: win probability 0.8, ask 50 cents,
budget 200 dollars. -/
theorem C4_kelly_bounds_witness :
    ((0 : ℚ) ≤ 200)
    ∧ (0 ≤ calculate_kelly_contracts (8/10) 50 200
        ∧ calculate_kelly_contracts (8/10) 50 200 ≤ MAX_CONTRACTS
        ∧ (calculate_kelly_contracts (8/10) 50 200 : ℚ) * (50 : ℚ) / 100 ≤ 200) :=
  ⟨by norm_num, C4_kelly_bounds (8/10) 50 200 (by norm_num)⟩

/- ------------------------------------------------------------------ -/
/- Auxiliary lemmas about the startup load fold (claims C3 and C9). -/

theorem loadStep_keeps_fresh (parse : String → Option ℚ) (now : ℚ)
    (acc : LoadResult) (item : Item)
    (h : ∀ kp ∈ acc.positions, kp.2.is_expired parse now = false) :
    ∀ kp ∈ (loadStep parse now acc item).positions,
      kp.2.is_expired parse now = false := by
  intro kp hkp
  unfold loadStep at hkp
  by_cases hexp : (itemToPosition item).is_expired parse now
  · rw [if_pos hexp] at hkp
    exact h kp hkp
  · rw [if_neg hexp] at hkp
    rcases mem_setPos hkp with h' | h'
    · rw [h']
      simpa using hexp
    · exact h kp h'

theorem load_fold_keeps_fresh (parse : String → Option ℚ) (now : ℚ)
    (items : List Item) (acc : LoadResult)
    (h : ∀ kp ∈ acc.positions, kp.2.is_expired parse now = false) :
    ∀ kp ∈ (items.foldl (loadStep parse now) acc).positions,
      kp.2.is_expired parse now = false := by
  induction items generalizing acc with
  | nil => exact h
  | cons item rest ih =>
    exact ih (loadStep parse now acc item) (loadStep_keeps_fresh parse now acc item h)

theorem load_fold_deleted_mono (parse : String → Option ℚ) (now : ℚ)
    (items : List Item) (acc : LoadResult) (t : String)
    (h : t ∈ acc.deleted) :
    t ∈ (items.foldl (loadStep parse now) acc).deleted := by
  induction items generalizing acc with
  | nil => exact h
  | cons item rest ih =>
    apply ih
    unfold loadStep
    by_cases hexp : (itemToPosition item).is_expired parse now
    · rw [if_pos hexp]
      exact List.mem_append_left _ h
    · rw [if_neg hexp]
      exact h

theorem load_fold_expired_deleted (parse : String → Option ℚ) (now : ℚ)
    (items : List Item) (acc : LoadResult) (item : Item)
    (hmem : item ∈ items)
    (hexp : (itemToPosition item).is_expired parse now = true) :
    (itemToPosition item).ticker ∈ (items.foldl (loadStep parse now) acc).deleted := by
  induction items generalizing acc with
  | nil => cases hmem
  | cons hd rest ih =>
    rw [List.foldl_cons]
    rcases List.mem_cons.1 hmem with heq | hmem'
    · subst heq
      apply load_fold_deleted_mono
      unfold loadStep
      rw [if_pos hexp]
      exact List.mem_append_right _ (List.mem_singleton_self _)
    · exact ih (loadStep parse now acc hd) hmem'

/- ------------------------------------------------------------------ -/
/- Claim C3. -/

/-- Claim C3: after startup loading, every position admitted into the
in-memory map is not expired at load time, and every persisted position that
has already expired is deleted from the durable store (its ticker is in the
deletion list) and so never appears in the active in-memory ledger. -/
theorem C3_reload_purges_expired (parse : String → Option ℚ) (now : ℚ)
    (items : List Item) :
    (∀ kp ∈ (load_positions_from_dynamodb parse now items).positions,
        kp.2.is_expired parse now = false)
    ∧ (∀ item ∈ items, (itemToPosition item).is_expired parse now = true →
        (itemToPosition item).ticker
          ∈ (load_positions_from_dynamodb parse now items).deleted
        ∧ ∀ kp ∈ (load_positions_from_dynamodb parse now items).positions,
            kp.2 ≠ itemToPosition item) := by
  constructor
  · exact load_fold_keeps_fresh parse now items ⟨[], []⟩ (by simp)
  · intro item hmem hexp
    constructor
    · exact load_fold_expired_deleted parse now items ⟨[], []⟩ item hmem hexp
    · intro kp hkp heq
      have hfresh := load_fold_keeps_fresh parse now items ⟨[], []⟩ (by simp) kp hkp
      rw [heq, hexp] at hfresh
      cases hfresh

/-- A concrete parse function for witnesses: recognizes the default
timestamp and one well-formed timestamp. -/
def parseW : String → Option ℚ := fun s =>
  if s = "2000-01-01T00:00:00" then some 0
  else if s = "2030-01-01T01:00:00" then some 100
  else none

/-- Witness item: unparseable expiry string, hence expired. -/
def itemX : Item :=
  { ticker := "X", contracts := 2, avg_price_cents := 40, entry_edge := 12,
    last_edge := 12, btc_price_at_entry := 90000, strike_price := 91000,
    opened_at := "2025-01-01T00:00:00", expiry_time := some "JUNK" }

/-- Witness item: well-formed future expiry, hence fresh at time 50. -/
def itemY : Item :=
  { ticker := "Y", contracts := 3, avg_price_cents := 55, entry_edge := 11,
    last_edge := 11, btc_price_at_entry := 90000, strike_price := 92000,
    opened_at := "2025-01-01T00:00:00", expiry_time := some "2030-01-01T01:00:00" }

/-- Witness item: missing expiry attribute, so it gets the year-2000 default
and is expired at time 50. -/
def itemZ : Item :=
  { ticker := "Z", contracts := 1, avg_price_cents := 70, entry_edge := 13,
    last_edge := 13, btc_price_at_entry := 90000, strike_price := 93000,
    opened_at := "2025-01-01T00:00:00", expiry_time := none }

/-- Witness for C3 on a concrete three-item table at time 50: the admitted
entry for "Y" is fresh, and the expired item "X" is purged. -/
theorem C3_reload_purges_expired_witness :
    (itemX ∈ [itemX, itemY, itemZ]
      ∧ (itemToPosition itemX).is_expired parseW 50 = true
      ∧ ("Y", itemToPosition itemY)
          ∈ (load_positions_from_dynamodb parseW 50 [itemX, itemY, itemZ]).positions)
    ∧ ((itemToPosition itemY).is_expired parseW 50 = false
      ∧ (itemToPosition itemX).ticker
          ∈ (load_positions_from_dynamodb parseW 50 [itemX, itemY, itemZ]).deleted) :=
  ⟨⟨by decide, by decide, by decide⟩,
   (C3_reload_purges_expired parseW 50 [itemX, itemY, itemZ]).1
       ("Y", itemToPosition itemY) (by decide),
   ((C3_reload_purges_expired parseW 50 [itemX, itemY, itemZ]).2
       itemX (by decide) (by decide)).1⟩

/- ------------------------------------------------------------------ -/
/- Claim C9. -/

/-- Claim C9: on startup reload an item lacking the expiry_time attribute is
given the default '2000-01-01T00:00:00'; `is_expired` returns True whenever
the expiry string cannot be parsed; and in both cases (unparseable expiry,
or missing attribute once the default timestamp lies in the past) the
position is purged - its ticker lands in the deletion list and the expired
record never appears in the admitted in-memory map. -/
theorem C9_default_and_unparseable_expiry (parse : String → Option ℚ) (now t0 : ℚ)
    (items : List Item) (item : Item) (pos : Position)
    (hmem : item ∈ items)
    (hbad : parse (itemToPosition item).expiry_time = none
      ∨ (item.expiry_time = none ∧ parse "2000-01-01T00:00:00" = some t0 ∧ t0 < now)) :
    (item.expiry_time = none →
      (itemToPosition item).expiry_time = "2000-01-01T00:00:00")
    ∧ (parse pos.expiry_time = none → pos.is_expired parse now = true)
    ∧ (itemToPosition item).is_expired parse now = true
    ∧ (itemToPosition item).ticker
        ∈ (load_positions_from_dynamodb parse now items).deleted
    ∧ (∀ kp ∈ (load_positions_from_dynamodb parse now items).positions,
        kp.2 ≠ itemToPosition item) := by
  have hdefault : ∀ it : Item, it.expiry_time = none →
      (itemToPosition it).expiry_time = "2000-01-01T00:00:00" := by
    intro it h
    simp [itemToPosition, h]
  have hunparse : ∀ (q : Position), parse q.expiry_time = none →
      q.is_expired parse now = true := by
    intro q h
    unfold Position.is_expired
    rw [h]
  have hexp : (itemToPosition item).is_expired parse now = true := by
    rcases hbad with h | ⟨hnone, hparse, hlt⟩
    · exact hunparse _ h
    · unfold Position.is_expired
      rw [hdefault item hnone, hparse]
      simpa using hlt
  refine ⟨hdefault item, hunparse pos, hexp, ?_, ?_⟩
  · exact load_fold_expired_deleted parse now items ⟨[], []⟩ item hmem hexp
  · intro kp hkp heq
    have hfresh := load_fold_keeps_fresh parse now items ⟨[], []⟩ (by simp) kp hkp
    rw [heq, hexp] at hfresh
    cases hfresh

/-- Witness for C9 on the concrete table: item "Z" (missing attribute, so
default timestamp 2000-01-01, parsed to epoch 0 < 50) is purged. -/
theorem C9_default_and_unparseable_expiry_witness :
    (itemZ ∈ [itemX, itemY, itemZ]
      ∧ (itemZ.expiry_time = none ∧ parseW "2000-01-01T00:00:00" = some 0
          ∧ (0 : ℚ) < 50))
    ∧ ((itemToPosition itemZ).expiry_time = "2000-01-01T00:00:00"
      ∧ (itemToPosition itemZ).is_expired parseW 50 = true
      ∧ (itemToPosition itemZ).ticker
          ∈ (load_positions_from_dynamodb parseW 50 [itemX, itemY, itemZ]).deleted) :=
  ⟨⟨by decide, by decide, by decide, by decide⟩,
   (C9_default_and_unparseable_expiry parseW 50 0 [itemX, itemY, itemZ] itemZ
       (itemToPosition itemZ) (by decide)
       (Or.inr ⟨by decide, by decide, by decide⟩)).1 (by decide),
   (C9_default_and_unparseable_expiry parseW 50 0 [itemX, itemY, itemZ] itemZ
       (itemToPosition itemZ) (by decide)
       (Or.inr ⟨by decide, by decide, by decide⟩)).2.2.1,
   (C9_default_and_unparseable_expiry parseW 50 0 [itemX, itemY, itemZ] itemZ
       (itemToPosition itemZ) (by decide)
       (Or.inr ⟨by decide, by decide, by decide⟩)).2.2.2.1⟩

/- ------------------------------------------------------------------ -/
/- Claim C2. -/

/-- In live mode a liquidation whose broker response is missing or carries a
status other than "filled" makes `execute_trade` report failure. -/
theorem execute_liquidate_unfilled (hk : Bool) (env : ExecEnv) (bal : ℚ)
    (c pr : ℤ)
    (h : ∀ o, env.sellResult = some o → o.status ≠ "filled") :
    (execute_trade false hk env bal c pr .LIQUIDATE).1 = none := by
  unfold execute_trade
  cases hk with
  | false => simp
  | true =>
    cases henv : env.sellResult with
    | none => simp [henv]
    | some o => simp [henv, h o henv]

/-- The exit fold never removes the entry of a ticker whose liquidation the
broker does not confirm as filled. -/
theorem exit_fold_preserves (hk : Bool) (env : String → ExecEnv) (t : String)
    (p : Position) (l : List Position) (acc : PositionTracker × ℚ)
    (hbr : ∀ o, (env t).sellResult = some o → o.status ≠ "filled")
    (hacc : lookupPos t acc.1.positions = some p) :
    lookupPos t (l.foldl (exit_step false hk env) acc).1.positions = some p := by
  induction l generalizing acc with
  | nil => exact hacc
  | cons pos rest ih =>
    rw [List.foldl_cons]
    apply ih
    unfold exit_step
    by_cases hedge : pos.last_edge ≤ EXIT_EDGE_PCT
    · rw [if_pos hedge]
      rcases hres : execute_trade false hk (env pos.ticker) acc.2
          pos.contracts (pyInt pos.avg_price_cents) .LIQUIDATE with ⟨oid, bal2⟩
      cases oid with
      | none => exact hacc
      | some o =>
        by_cases hticker : pos.ticker = t
        · rw [hticker] at hres
          have := execute_liquidate_unfilled hk (env t) acc.2
            pos.contracts (pyInt pos.avg_price_cents) hbr
          rw [hres] at this
          cases this
        · show lookupPos t (close_position acc.1 pos.ticker).1.positions = some p
          unfold close_position
          cases hcl : lookupPos pos.ticker acc.1.positions with
          | none => exact hacc
          | some q =>
            show lookupPos t (removePos pos.ticker acc.1.positions) = some p
            rw [lookupPos_removePos_ne hticker]
            exact hacc
    · rw [if_neg hedge]
      exact hacc

/-- Claim C2: in live mode, for every liquidation order whose broker-reported
status is anything other than "filled", `execute_trade` returns None, and the
exit pass of `scan_and_trade` then leaves that ticker's ledger entry present
and unmodified (`close_position` is never reached for it). -/
theorem C2_unfilled_liquidation_keeps_entry (hk : Bool) (env : String → ExecEnv)
    (tr : PositionTracker) (bal bal2 : ℚ) (t : String) (p : Position) (c pr : ℤ)
    (hbr : ∀ o, (env t).sellResult = some o → o.status ≠ "filled")
    (hlk : lookupPos t tr.positions = some p) :
    (execute_trade false hk (env t) bal2 c pr .LIQUIDATE).1 = none
    ∧ lookupPos t (exit_pass false hk env tr bal).1.positions = some p := by
  constructor
  · exact execute_liquidate_unfilled hk (env t) bal2 c pr hbr
  · exact exit_fold_preserves hk env t p (tr.positions.map Prod.snd) (tr, bal) hbr hlk

/-- Broker environment for the C2 witness: the liquidation comes back
"canceled" for every ticker. -/
def envCanceled : String → ExecEnv := fun _ =>
  { sellResult := some { order_id := some "oid-1", status := "canceled" }
    buyResult := none
    polls := []
    nowMs := 0 }

/-- A position whose edge has dropped to 0, flagged for liquidation. -/
def posExit : Position :=
  { ticker := "T", contracts := 2, avg_price_cents := 40, entry_edge := 12,
    last_edge := 0, btc_price_at_entry := 90000, strike_price := 91000,
    opened_at := "2025-01-01T00:00:00", expiry_time := "2025-01-01T01:00:00" }

/-- A live tracker holding `posExit`. -/
def trExit : PositionTracker :=
  { positions := [("T", posExit)], dry_run := false, use_dynamodb := true }

/-- Witness for C2: with the broker reporting "canceled", the liquidation of
the flagged position "T" fails and the exit pass leaves its entry intact. -/
theorem C2_unfilled_liquidation_keeps_entry_witness :
    ((envCanceled "T").sellResult
        = some { order_id := some "oid-1", status := "canceled" }
      ∧ lookupPos "T" trExit.positions = some posExit
      ∧ posExit.last_edge ≤ EXIT_EDGE_PCT)
    ∧ ((execute_trade false true (envCanceled "T") 200 2 40 .LIQUIDATE).1 = none
      ∧ lookupPos "T" (exit_pass false true envCanceled trExit 200).1.positions
          = some posExit) :=
  ⟨⟨by decide, by decide, by decide⟩,
   C2_unfilled_liquidation_keeps_entry true envCanceled trExit 200 200 "T" posExit 2 40
     (fun o h => by
       rw [show (envCanceled "T").sellResult
             = some { order_id := some "oid-1", status := "canceled" } from rfl] at h
       injection h with h2
       rw [← h2]
       decide)
     (by decide)⟩

/- ------------------------------------------------------------------ -/
/- Analytic lemmas about the normal-CDF approximation (claims C5, C6). -/

theorem normT_pos (z : ℝ) : 0 < normT z := by
  unfold normT
  positivity

theorem normT_le_one (z : ℝ) : normT z ≤ 1 := by
  unfold normT
  rw [div_le_one (by positivity)]
  nlinarith [abs_nonneg z]

theorem normT_anti {z1 z2 : ℝ} (h : |z1| ≤ |z2|) : normT z2 ≤ normT z1 := by
  unfold normT
  apply one_div_le_one_div_of_le (by positivity)
  nlinarith [abs_nonneg z1]

theorem normT_lb {z : ℝ} (h : |z| ≤ 6) : 2/5 ≤ normT z := by
  unfold normT
  rw [le_div_iff₀ (by positivity)]
  nlinarith [abs_nonneg z]

theorem normD_pos (z : ℝ) : 0 < normD z := by
  unfold normD
  positivity

theorem normD_anti {z1 z2 : ℝ} (h : |z1| ≤ |z2|) : normD z2 ≤ normD z1 := by
  unfold normD
  have hsq : z1 * z1 ≤ z2 * z2 := by
    have := mul_self_le_mul_self (abs_nonneg z1) h
    rwa [abs_mul_abs_self, abs_mul_abs_self] at this
  have hexp : Real.exp (-(z2 * z2) / 2) ≤ Real.exp (-(z1 * z1) / 2) :=
    Real.exp_le_exp.2 (by linarith)
  linarith

/-- The symmetrized difference-quotient of `t * normPoly t` is non-negative
on the interval `[2/5, 1]`, which contains `normT z` for every `|z| ≤ 6`. -/
theorem polyS_nonneg {t1 t2 : ℝ} (h1 : 2/5 ≤ t1) (h12 : t1 ≤ t2) (h2 : t2 ≤ 1) :
    0 ≤ 0.3193815 + (-0.3565638) * (t1 + t2)
      + 1.781478 * (t1^2 + t1*t2 + t2^2)
      + (-1.821256) * (t1^3 + t1^2*t2 + t1*t2^2 + t2^3)
      + 1.330274 * (t1^4 + t1^3*t2 + t1^2*t2^2 + t1*t2^3 + t2^4) := by
  nlinarith [sq_nonneg (t1 - t2), sq_nonneg (t1 + t2 - 1), sq_nonneg (t1 + t2 - 4/5),
    mul_nonneg (sub_nonneg.2 h1) (sub_nonneg.2 h12),
    mul_nonneg (sub_nonneg.2 h1) (sub_nonneg.2 h2),
    mul_nonneg (sub_nonneg.2 h12) (sub_nonneg.2 h2),
    sq_nonneg (t1*t2 - 1), sq_nonneg (t1*t2 - 2/5),
    mul_nonneg (mul_nonneg (sub_nonneg.2 h1) (sub_nonneg.2 h1)) (sub_nonneg.2 h2),
    mul_nonneg (mul_nonneg (sub_nonneg.2 h1) (sub_nonneg.2 h2)) (sub_nonneg.2 h2)]

/-- `t * normPoly t` is monotone on `[2/5, 1]`. -/
theorem Q_mono {t1 t2 : ℝ} (h1 : 2/5 ≤ t1) (h12 : t1 ≤ t2) (h2 : t2 ≤ 1) :
    t1 * normPoly t1 ≤ t2 * normPoly t2 := by
  have hS := polyS_nonneg h1 h12 h2
  have hprod : 0 ≤ (t2 - t1) * (0.3193815 + (-0.3565638) * (t1 + t2)
      + 1.781478 * (t1^2 + t1*t2 + t2^2)
      + (-1.821256) * (t1^3 + t1^2*t2 + t1*t2^2 + t2^3)
      + 1.330274 * (t1^4 + t1^3*t2 + t1^2*t2^2 + t1*t2^3 + t2^4)) :=
    mul_nonneg (by linarith) hS
  have hkey : t2 * normPoly t2 - t1 * normPoly t1
      = (t2 - t1) * (0.3193815 + (-0.3565638) * (t1 + t2)
        + 1.781478 * (t1^2 + t1*t2 + t2^2)
        + (-1.821256) * (t1^3 + t1^2*t2 + t1*t2^2 + t2^3)
        + 1.330274 * (t1^4 + t1^3*t2 + t1^2*t2^2 + t1*t2^3 + t2^4)) := by
    unfold normPoly
    ring
  rw [← hkey] at hprod
  linarith

/-- `t * normPoly t` is non-negative on `[2/5, 1]`. -/
theorem Q_lb {t : ℝ} (h1 : 2/5 ≤ t) (h2 : t ≤ 1) : 0 ≤ t * normPoly t := by
  have h0 : (0 : ℝ) ≤ (2/5 : ℝ) * normPoly (2/5) := by
    unfold normPoly
    norm_num
  exact le_trans h0 (Q_mono le_rfl h1 h2)

theorem pTail_nonneg {z : ℝ} (h : |z| ≤ 6) : 0 ≤ pTail z := by
  unfold pTail
  rw [mul_assoc]
  exact mul_nonneg (normD_pos z).le (Q_lb (normT_lb h) (normT_le_one z))

theorem pTail_anti {z1 z2 : ℝ} (h12 : |z1| ≤ |z2|) (h6 : |z2| ≤ 6) :
    pTail z2 ≤ pTail z1 := by
  unfold pTail
  rw [mul_assoc, mul_assoc]
  exact mul_le_mul (normD_anti h12)
    (Q_mono (normT_lb h6) (normT_anti h12) (normT_le_one z1))
    (Q_lb (normT_lb h6) (normT_le_one z2)) (normD_pos z1).le

theorem pTail_zero_lt_half : pTail 0 < 1/2 := by
  unfold pTail normD normT normPoly
  simp only [abs_zero]
  norm_num [Real.exp_zero]

theorem pTail_lt_half {z : ℝ} (h : |z| ≤ 6) : pTail z < 1/2 := by
  have h0 : pTail z ≤ pTail 0 := pTail_anti (by simp) h
  exact lt_of_le_of_lt h0 pTail_zero_lt_half

theorem norm_cdf_hi {z : ℝ} (h : 6 < z) : norm_cdf z = 1 := by
  unfold norm_cdf
  rw [if_neg (by linarith), if_pos h]

theorem norm_cdf_lo {z : ℝ} (h : z < -6) : norm_cdf z = 0 := by
  unfold norm_cdf
  rw [if_pos h]

theorem norm_cdf_nonneg (z : ℝ) : 0 ≤ norm_cdf z := by
  unfold norm_cdf
  split_ifs with h1 h2 h3
  · exact le_refl 0
  · norm_num
  · have ha : |z| ≤ 6 := abs_le.2 ⟨not_lt.1 h1, not_lt.1 h2⟩
    have := pTail_lt_half ha
    linarith
  · exact pTail_nonneg (abs_le.2 ⟨not_lt.1 h1, not_lt.1 h2⟩)

theorem norm_cdf_le_one (z : ℝ) : norm_cdf z ≤ 1 := by
  unfold norm_cdf
  split_ifs with h1 h2 h3
  · norm_num
  · exact le_refl 1
  · have := pTail_nonneg (abs_le.2 ⟨not_lt.1 h1, not_lt.1 h2⟩)
    linarith
  · have ha : |z| ≤ 6 := abs_le.2 ⟨not_lt.1 h1, not_lt.1 h2⟩
    have := pTail_lt_half ha
    linarith

/-- The implemented CDF approximation is monotone in its argument. -/
theorem norm_cdf_mono {z1 z2 : ℝ} (h : z1 ≤ z2) : norm_cdf z1 ≤ norm_cdf z2 := by
  rcases lt_or_le z1 (-6) with h1 | h1
  · rw [norm_cdf_lo h1]
    exact norm_cdf_nonneg z2
  · rcases lt_or_le 6 z2 with h2 | h2
    · rw [norm_cdf_hi h2]
      exact norm_cdf_le_one z1
    · have h16 : z1 ≤ 6 := le_trans h h2
      have h26 : -6 ≤ z2 := le_trans h1 h
      have e1 : norm_cdf z1 = if 0 < z1 then 1 - pTail z1 else pTail z1 := by
        unfold norm_cdf
        rw [if_neg (not_lt.2 h1), if_neg (not_lt.2 h16)]
      have e2 : norm_cdf z2 = if 0 < z2 then 1 - pTail z2 else pTail z2 := by
        unfold norm_cdf
        rw [if_neg (not_lt.2 h26), if_neg (not_lt.2 h2)]
      have ha1 : |z1| ≤ 6 := abs_le.2 ⟨h1, h16⟩
      have ha2 : |z2| ≤ 6 := abs_le.2 ⟨h26, h2⟩
      rw [e1, e2]
      by_cases hp1 : 0 < z1
      · have hp2 : 0 < z2 := lt_of_lt_of_le hp1 h
        rw [if_pos hp1, if_pos hp2]
        have hle : pTail z2 ≤ pTail z1 := by
          apply pTail_anti _ ha2
          rw [abs_of_pos hp1, abs_of_pos hp2]
          exact h
        linarith
      · rw [if_neg hp1]
        by_cases hp2 : 0 < z2
        · rw [if_pos hp2]
          have b1 : pTail z1 < 1/2 := pTail_lt_half ha1
          have b2 : pTail z2 < 1/2 := pTail_lt_half ha2
          linarith
        · rw [if_neg hp2]
          apply pTail_anti _ ha1
          push_neg at hp1 hp2
          rw [abs_of_nonpos hp1, abs_of_nonpos hp2]
          linarith

/-- For valid inputs, `calculate_model_probability` returns the CDF of the
standardized distance. -/
theorem calculate_model_probability_eq {spot strike vol : ℝ} {m : ℤ}
    (hv : 0 < vol) (hm : 0 < m) :
    calculate_model_probability spot strike vol m
      = some (norm_cdf ((strike - spot) / spot * 100
          / (vol * Real.sqrt ((m : ℝ) / 15)))) := by
  have hmr : (0 : ℝ) < (m : ℝ) := by exact_mod_cast hm
  have hs : 0 < vol * Real.sqrt ((m : ℝ) / 15) := by
    apply mul_pos hv
    apply Real.sqrt_pos.2
    positivity
  unfold calculate_model_probability
  rw [if_neg (by push_neg; exact ⟨hv, hm⟩)]
  simp only [hs, if_true]

/-- A standardized distance above 6 saturates the returned probability to
exactly 1. -/
theorem modelProb_saturates_one {spot strike vol : ℝ} {m : ℤ}
    (hv : 0 < vol) (hm : 0 < m)
    (h : 6 < (strike - spot) / spot * 100 / (vol * Real.sqrt ((m : ℝ) / 15))) :
    calculate_model_probability spot strike vol m = some 1 := by
  rw [calculate_model_probability_eq hv hm, norm_cdf_hi h]

/-- A standardized distance below -6 saturates the returned probability to
exactly 0. -/
theorem modelProb_saturates_zero {spot strike vol : ℝ} {m : ℤ}
    (hv : 0 < vol) (hm : 0 < m)
    (h : (strike - spot) / spot * 100 / (vol * Real.sqrt ((m : ℝ) / 15)) < -6) :
    calculate_model_probability spot strike vol m = some 0 := by
  rw [calculate_model_probability_eq hv hm, norm_cdf_lo h]

/-- The spec's worked example has standardized distance 125/18 > 6. -/
theorem example_distance_gt_six :
    6 < ((90500 : ℝ) - 90000) / 90000 * 100
      / ((8/100) * Real.sqrt (((15 : ℤ) : ℝ) / 15)) := by
  have h15 : (((15 : ℤ) : ℝ) / 15) = 1 := by norm_num
  rw [h15, Real.sqrt_one]
  norm_num

/- ------------------------------------------------------------------ -/
/- Claim C5. -/

/-- Claim C5: for every input with vol_std > 0 and minutes_left > 0, when the
standardized distance `(strike-spot)/spot*100 / (vol_std*sqrt(minutes/15))`
exceeds 6 the returned probability is exactly 1, when it is below -6 it is
exactly 0; in particular for spot = 90000, strike = 90500, vol_std = 0.08,
minutes_left = 15 the probability is exactly 1. -/
theorem C5_probability_saturation (spot strike vol : ℝ) (m : ℤ)
    (hv : 0 < vol) (hm : 0 < m) :
    (6 < (strike - spot) / spot * 100 / (vol * Real.sqrt ((m : ℝ) / 15)) →
      calculate_model_probability spot strike vol m = some 1)
    ∧ ((strike - spot) / spot * 100 / (vol * Real.sqrt ((m : ℝ) / 15)) < -6 →
      calculate_model_probability spot strike vol m = some 0)
    ∧ calculate_model_probability 90000 90500 (8/100) 15 = some 1 :=
  ⟨fun h => modelProb_saturates_one hv hm h,
   fun h => modelProb_saturates_zero hv hm h,
   modelProb_saturates_one (by norm_num) (by norm_num) example_distance_gt_six⟩

/-- Witness for C5 at the spec's own example inputs. -/
theorem C5_probability_saturation_witness :
    ((0 : ℝ) < 8/100 ∧ (0 : ℤ) < 15)
    ∧ calculate_model_probability 90000 90500 (8/100) 15 = some 1 :=
  ⟨⟨by norm_num, by norm_num⟩,
   (C5_probability_saturation 90000 90500 (8/100) 15 (by norm_num) (by norm_num)).2.2⟩

/- ------------------------------------------------------------------ -/
/- Claim C6 (corrected: strictness fails in the saturation region). -/

/-- Counterexample to claim C6 as stated: for spot = 90000, vol_std = 0.08,
minutes_left = 15, the strikes 90500 and 91000 both return probability
exactly 1, so the probability does NOT strictly increase in the strike. -/
theorem C6_counterexample :
    calculate_model_probability 90000 90500 (8/100) 15 = some 1
    ∧ calculate_model_probability 90000 91000 (8/100) 15 = some 1
    ∧ (90500 : ℝ) < 91000 := by
  refine ⟨modelProb_saturates_one (by norm_num) (by norm_num) example_distance_gt_six,
          modelProb_saturates_one (by norm_num) (by norm_num) ?_, by norm_num⟩
  have h15 : (((15 : ℤ) : ℝ) / 15) = 1 := by norm_num
  rw [h15, Real.sqrt_one]
  norm_num

/-- Claim C6 as amended: for every fixed spot price > 0, vol_std > 0 and
minutes_left > 0, the probability returned by
`calculate_model_probability` is non-decreasing in the strike; and for
every fixed strike at or above spot, it is non-increasing in minutes_left. -/
theorem C6_probability_monotone (spot vol strike strike1 strike2 : ℝ)
    (m m1 m2 : ℤ) (p1 p2 q1 q2 : ℝ) (hs : 0 < spot) (hv : 0 < vol) :
    (0 < m → strike1 ≤ strike2 →
      calculate_model_probability spot strike1 vol m = some p1 →
      calculate_model_probability spot strike2 vol m = some p2 → p1 ≤ p2)
    ∧ (0 < m1 → m1 ≤ m2 → spot ≤ strike →
      calculate_model_probability spot strike vol m1 = some q1 →
      calculate_model_probability spot strike vol m2 = some q2 → q2 ≤ q1) := by
  constructor
  · intro hm h12 hp1 hp2
    rw [calculate_model_probability_eq hv hm] at hp1 hp2
    have e1 := Option.some.inj hp1
    have e2 := Option.some.inj hp2
    subst e1
    subst e2
    apply norm_cdf_mono
    have hden : 0 < vol * Real.sqrt ((m : ℝ) / 15) := by
      apply mul_pos hv
      apply Real.sqrt_pos.2
      have : (0 : ℝ) < (m : ℝ) := by exact_mod_cast hm
      positivity
    have hnum : (strike1 - spot) / spot * 100 ≤ (strike2 - spot) / spot * 100 := by
      apply mul_le_mul_of_nonneg_right _ (by norm_num)
      exact (div_le_div_iff_of_pos_right hs).2 (by linarith)
    exact (div_le_div_iff_of_pos_right hden).2 hnum
  · intro hm1 hm12 hss hq1 hq2
    have hm2 : (0 : ℤ) < m2 := lt_of_lt_of_le hm1 hm12
    rw [calculate_model_probability_eq hv hm1] at hq1
    rw [calculate_model_probability_eq hv hm2] at hq2
    have e1 := Option.some.inj hq1
    have e2 := Option.some.inj hq2
    subst e1
    subst e2
    apply norm_cdf_mono
    have hD : 0 ≤ (strike - spot) / spot * 100 := by
      apply mul_nonneg _ (by norm_num)
      exact div_nonneg (by linarith) hs.le
    have hs1 : 0 < vol * Real.sqrt ((m1 : ℝ) / 15) := by
      apply mul_pos hv
      apply Real.sqrt_pos.2
      have : (0 : ℝ) < (m1 : ℝ) := by exact_mod_cast hm1
      positivity
    have hsle : vol * Real.sqrt ((m1 : ℝ) / 15) ≤ vol * Real.sqrt ((m2 : ℝ) / 15) := by
      apply mul_le_mul_of_nonneg_left _ hv.le
      apply Real.sqrt_le_sqrt
      have : (m1 : ℝ) ≤ (m2 : ℝ) := by exact_mod_cast hm12
      linarith
    exact div_le_div_of_nonneg_left hD hs1 hsle

/-- Witness for C6 at concrete inputs: spot 100, vol 1, 15 minutes; the
probability at strike 100 (distance 0) is at most the probability at
strike 200 (saturated to 1). -/
theorem C6_probability_monotone_witness :
    ((0 : ℝ) < 100 ∧ (0 : ℝ) < 1 ∧ (0 : ℤ) < 15 ∧ (100 : ℝ) ≤ 200)
    ∧ norm_cdf 0 ≤ 1 :=
  ⟨⟨by norm_num, by norm_num, by norm_num, by norm_num⟩,
   (C6_probability_monotone 100 1 100 100 200 15 15 15 (norm_cdf 0) 1 0 0
       (by norm_num) (by norm_num)).1 (by norm_num) (by norm_num)
     (by
       rw [calculate_model_probability_eq (by norm_num : (0:ℝ) < 1)
         (by norm_num : (0:ℤ) < 15)]
       norm_num)
     (modelProb_saturates_one (by norm_num) (by norm_num)
       (by
         have h15 : (((15 : ℤ) : ℝ) / 15) = 1 := by norm_num
         rw [h15, Real.sqrt_one]
         norm_num))⟩

end BTCBot
